import Mathlib

/-!
Shallow embedding of the identity-resolution and conflict-resolution core of
`HolisticCustomerProfileAggregator` (src/unnamed/part_000), together with
theorems settling the frozen claims about it.

Modelling conventions:
* JS numbers carrying confidences and weights are embedded as `ℚ`.
* A JS `Map` (which iterates in insertion order; `set` on an existing key
  updates the value in place) is embedded as an association list with
  `getKV`/`setKV` below.
* A plain JS object used as a string-keyed dictionary has the same
  insertion-order semantics and reuses `getKV`/`setKV`.
* `Array.prototype.sort` is stable (ECMAScript 2019); a stable sort by the
  comparator `(a, b) => b.totalWeight - a.totalWeight` is embedded as
  `List.insertionSort` with the relation `voteGE` (insertion sort in Mathlib
  is stable: an element is inserted before the first element it relates to,
  so elements with equal keys keep their original relative order).
* Fallible JS code (a `throw` anywhere in an `async` method rejects the
  promise) is embedded with `Except JsError`.
-/

/-- Errors that can surface from the embedded code.  `typeError` models a
JavaScript `TypeError` (e.g. indexing `undefined`); the remaining
constructors name the errors the specification's taxonomy defines, so that
the embedded behaviour can be compared against it.  `strategyError` stands
for an arbitrary failure thrown by one identity-resolution strategy. -/
inductive JsError where
  | typeError
  | danglingReferenceError
  | noIdentityEvidenceError
  | strategyError
deriving DecidableEq

instance {ε α : Type} [DecidableEq ε] [DecidableEq α] : DecidableEq (Except ε α) := fun a b =>
  match a, b with
  | .error e, .error e' =>
    if h : e = e' then .isTrue (by rw [h]) else .isFalse (by intro hc; cases hc; exact h rfl)
  | .ok x, .ok y =>
    if h : x = y then .isTrue (by rw [h]) else .isFalse (by intro hc; cases hc; exact h rfl)
  | .error _, .ok _ => .isFalse (by intro hc; cases hc)
  | .ok _, .error _ => .isFalse (by intro hc; cases hc)

/-- Lookup in an insertion-ordered association list (JS `Map.get` / object
property read). -/
def getKV {α : Type} : List (String × α) → String → Option α
  | [], _ => none
  | (k', v) :: rest, k => if k' = k then some v else getKV rest k

/-- Update in an insertion-ordered association list (JS `Map.set` / object
property assignment): an existing key keeps its position and gets the new
value, a new key is appended at the end. -/
def setKV {α : Type} : List (String × α) → String → α → List (String × α)
  | [], k, v => [(k, v)]
  | (k', v') :: rest, k, v =>
    if k' = k then (k, v) :: rest else (k', v') :: setKV rest k v

/-- Metadata of one identity claim, as consumed by `#establishConsensusIdentity`
and `#resolveCustomerIdentity` (fields `source`, `relationship`, `confidence`,
`temporalScope` of the per-claim metadata object). -/
structure ClaimMeta where
  source : String
  relationship : String
  confidence : ℚ
  temporalScope : String
deriving DecidableEq

/-- One entry of a strategy's `resolution.identities` map: a candidate
identity key with its claim metadata. -/
abbrev IdentityClaim := String × ClaimMeta

/-- One value of the `identityVotes` map in `#establishConsensusIdentity`:
`{ totalWeight, sources }`. -/
structure Vote where
  totalWeight : ℚ
  sources : List String
deriving DecidableEq

abbrev VotesMap := List (String × Vote)

/-- The inner loop of `#establishConsensusIdentity` for one strategy result:
for each claim, read the current vote (defaulting to
`{ totalWeight: 0, sources: [] }`), add `weight * metadata.confidence`, and
push the claim's source. -/
def accumulateResolution (m : VotesMap) (weight : ℚ) (claims : List IdentityClaim) : VotesMap :=
  claims.foldl
    (fun m c =>
      let cur := (getKV m c.1).getD { totalWeight := 0, sources := [] }
      setKV m c.1
        { totalWeight := cur.totalWeight + weight * c.2.confidence
          sources := cur.sources ++ [c.2.source] })
    m

/-- The full vote-accumulation pass of `#establishConsensusIdentity`
(lines 72-82).  The source indexes `confidenceWeights[i]` alongside
`resolutionResults[i]`; the two parallel sequences are embedded as one list
of `(weight, claims)` pairs.  The weights come from
`#calculateResolutionWeights`, which is not part of the core being modelled,
so they are taken as input. -/
def identityVotes (results : List (ℚ × List IdentityClaim)) : VotesMap :=
  results.foldl (fun m r => accumulateResolution m r.1 r.2) []

/-- The sort order of `#establishConsensusIdentity`'s comparator
`(a, b) => b[1].totalWeight - a[1].totalWeight`: descending total weight. -/
def voteGE (a b : String × Vote) : Prop := b.2.totalWeight ≤ a.2.totalWeight

instance : DecidableRel voteGE := fun a b =>
  inferInstanceAs (Decidable (b.2.totalWeight ≤ a.2.totalWeight))

instance : IsTotal (String × Vote) voteGE :=
  ⟨fun a b =>
    show b.2.totalWeight ≤ a.2.totalWeight ∨ a.2.totalWeight ≤ b.2.totalWeight from
      le_total _ _⟩

instance : IsTrans (String × Vote) voteGE :=
  ⟨fun _ _ _ h₁ h₂ => le_trans h₂ h₁⟩

/-- Stable descending sort of the vote entries, as performed by
`Array.from(identityVotes.entries()).sort((a, b) => b[1].totalWeight - a[1].totalWeight)`. -/
def sortVotesDesc (m : VotesMap) : VotesMap := List.insertionSort voteGE m

/-- Lines 68-87 of src/unnamed/part_000: accumulate weighted votes, sort the
entries by descending total weight, and take `.slice(0, 1)[0][0]`.  When the
vote map is empty, `.slice(0, 1)[0]` is `undefined` and indexing it throws a
`TypeError`. -/
def establishConsensusIdentity (results : List (ℚ × List IdentityClaim)) :
    Except JsError String :=
  match sortVotesDesc (identityVotes results) with
  | [] => .error .typeError
  | e :: _ => .ok e.1

/-- The accumulated vote of one identity key (0 when the key received no
claim), read off the vote map. -/
def voteOf (results : List (ℚ × List IdentityClaim)) (k : String) : ℚ :=
  ((getKV (identityVotes results) k).getD { totalWeight := 0, sources := [] }).totalWeight

/-- Sum of the confidences of the claims for key `k` inside one strategy's
claim list. -/
def confSum (k : String) : List IdentityClaim → ℚ
  | [] => 0
  | c :: cs => (if c.1 = k then c.2.confidence else 0) + confSum k cs

/-- Closed form of the accumulated vote of key `k`:
`Σ_i weight_i * (Σ of the confidences of strategy i's claims for k)`. -/
def voteFormula (k : String) : List (ℚ × List IdentityClaim) → ℚ
  | [] => 0
  | (w, cs) :: rs => w * confSum k cs + voteFormula k rs

/-- First entry of the vote map (in insertion order) whose total weight is
maximal; a later entry replaces the current best only when its weight is
strictly larger.  This is the head of a stable descending sort. -/
def firstMaxVote : VotesMap → Option (String × Vote)
  | [] => none
  | e :: rest =>
    match firstMaxVote rest with
    | none => some e
    | some b => some (if e.2.totalWeight < b.2.totalWeight then b else e)

/-- Scenario 1 of the specification: A claimed at confidence 0.9 by a
strategy of weight 1.0, A at 0.3 by a strategy of weight 0.5, B at 0.8 by a
strategy of weight 1.0. -/
def scenario1 : List (ℚ × List IdentityClaim) :=
  [ (1, [("A", { source := "strategy1", relationship := "same_person",
                 confidence := 9/10, temporalScope := "all" })])
  , (1/2, [("A", { source := "strategy2", relationship := "same_person",
                   confidence := 3/10, temporalScope := "all" })])
  , (1, [("B", { source := "strategy3", relationship := "same_person",
                 confidence := 8/10, temporalScope := "all" })]) ]

/-- Metadata of an identity-graph node. -/
structure NodeMeta where
  confidence : ℚ
  sources : List String
deriving DecidableEq

/-- Metadata of an identity-graph edge, as passed by `#resolveCustomerIdentity`
(lines 48-56): `{ relationship, confidence, temporalValidity }`. -/
structure EdgeMeta where
  relationship : String
  confidence : ℚ
  temporalValidity : String
deriving DecidableEq

/-- The identity graph: nodes keyed by identity, and directed edges
`(from, to, metadata)`.  The class `CustomerIdentityGraph` itself is not under
`src/`; its container shape follows the specification's data model. -/
structure CustomerIdentityGraph where
  nodes : List (String × NodeMeta)
  edges : List (String × String × EdgeMeta)
deriving DecidableEq

def CustomerIdentityGraph.hasNode (g : CustomerIdentityGraph) (id : String) : Bool :=
  g.nodes.any (fun n => n.1 = id)

/-- Modelled from the spec: `CustomerIdentityGraph.addIdentityNode` is not
under `src/`; per §4.1 `addNode` inserts a fresh node, and on an existing key
merges metadata by keeping the higher confidence and recording the additional
origin source. -/
def addIdentityNode (g : CustomerIdentityGraph) (id : String) (md : NodeMeta) :
    CustomerIdentityGraph :=
  match getKV g.nodes id with
  | none => { g with nodes := g.nodes ++ [(id, md)] }
  | some old =>
    { g with
        nodes := setKV g.nodes id
          { confidence := max old.confidence md.confidence
            sources := old.sources ++ md.sources } }

/-- Modelled from the spec: `CustomerIdentityGraph.addIdentityEdge` is not
under `src/`; per §4.1 and §7 `addEdge` fails with `DanglingReferenceError`
when either endpoint is absent, and otherwise appends the edge without
deduplication. -/
def addIdentityEdge (g : CustomerIdentityGraph) (src tgt : String) (md : EdgeMeta) :
    Except JsError CustomerIdentityGraph :=
  if g.hasNode src ∧ g.hasNode tgt then
    .ok { g with edges := g.edges ++ [(src, tgt, md)] }
  else
    .error .danglingReferenceError

/-- `Promise.all`: the joined promise is fulfilled with the list of all
results, and rejected as soon as any input promise is rejected (modelled
deterministically as the first rejection in list order). -/
def promiseAll {ε α : Type} : List (Except ε α) → Except ε (List α)
  | [] => .ok []
  | .error e :: _ => .error e
  | .ok a :: rest => (promiseAll rest).map (fun l => a :: l)

/-- The edge-building loop of `#resolveCustomerIdentity` (lines 46-58): for
every claim of every strategy result, add an edge from the initial identifier
to the claimed identity.  No node is added for the claimed identity. -/
def addClaimEdges (g₀ : CustomerIdentityGraph) (initialIdentifier : String)
    (results : List (List IdentityClaim)) : Except JsError CustomerIdentityGraph :=
  results.foldlM
    (fun g claims =>
      claims.foldlM
        (fun g c =>
          addIdentityEdge g initialIdentifier c.1
            { relationship := c.2.relationship
              confidence := c.2.confidence
              temporalValidity := c.2.temporalScope })
        g)
    g₀

/-- The part of the result object of `#resolveCustomerIdentity` that the
claims are about.  `masterCustomerId` is produced by the missing helper
`#generateMasterCustomerId` from the consensus identity; it is modelled as
the consensus identity itself (the spec's `ConsensusResult.masterIdentity`). -/
structure ResolvedIdentity where
  masterCustomerId : String
  identityGraph : CustomerIdentityGraph
deriving DecidableEq

/-- Lines 28-66 of src/unnamed/part_000: await all strategies with
`Promise.all`, establish the consensus identity, insert the initial
identifier as a node with confidence 1.0 and source "initial", then add one
edge per claim.  `weights` stands for the output of the missing
`#calculateResolutionWeights` (one weight per strategy result). -/
def resolveCustomerIdentity (weights : List ℚ)
    (strategyResults : List (Except JsError (List IdentityClaim)))
    (initialIdentifier : String) : Except JsError ResolvedIdentity := do
  let results ← promiseAll strategyResults
  let consensus ← establishConsensusIdentity (weights.zip results)
  let g := addIdentityNode { nodes := [], edges := [] } initialIdentifier
    { confidence := 1, sources := ["initial"] }
  let g ← addClaimEdges g initialIdentifier results
  return { masterCustomerId := consensus, identityGraph := g }

/-- One candidate value of a profile attribute, as listed in the data model:
`(value, source, observedAt, sourceReliability)`. -/
structure Candidate where
  value : String
  source : String
  observedAt : ℤ
  sourceReliability : ℚ
deriving DecidableEq

/-- One detected conflict of one attribute.  The `conflict.description` string
read by `#resolveProfileConflicts` is modelled as the conflicted attribute's
name. -/
structure AttributeConflict where
  attr : String
  candidates : List Candidate
deriving DecidableEq

/-- A multi-dimensional profile:
dimension name → attribute name → candidate list. -/
abbrev Profile := List (String × List (String × List Candidate))

/-- The distinct candidate values of one attribute, in first-occurrence
order (exact equality; the spec's tolerance-banded numeric equality is not
exercised by the claims). -/
def distinctValues (cands : List Candidate) : List String :=
  cands.foldl (fun acc c => if c.value ∈ acc then acc else acc ++ [c.value]) []

/-- Modelled from the spec: `ProfileConflictDetectionEngine.detectConflicts`
is not under `src/`; per §4.3 the detector scans every dimension and reports,
as one `AttributeConflict` per attribute, every attribute whose distinct
values number more than one.  Dimension order and per-dimension attribute
order follow the profile (JS `Map` insertion order). -/
def detectConflicts (profile : Profile) : List (String × List AttributeConflict) :=
  profile.map
    (fun dim =>
      (dim.1,
        (dim.2.filter (fun attr => 1 < (distinctValues attr.2).length)).map
          (fun attr => { attr := attr.1, candidates := attr.2 })))

/-- The four resolution strategies, keyed by the string keys of the
`resolutionStrategies` object (lines 119-124).  `#selectResolutionStrategy`
is not under `src/`; per the spec (§4.4, §9) selection is a per-conflict
policy over this closed set, so it is taken as an input function. -/
inductive ResolutionStrategy where
  | temporal_recency
  | source_reliability
  | statistical_consensus
  | contextual_plausibility
deriving DecidableEq

/-- The result object of one strategy's `resolve(conflict)` call:
`{ resolvedValue, explanation, confidence }`.  The four resolver classes are
not under `src/`; per §4.4 each is total over the non-empty candidate lists
the detector produces, so resolution is taken as an input function. -/
structure Resolution where
  resolvedValue : String
  explanation : String
  confidence : ℚ
deriving DecidableEq

/-- One entry pushed onto `resolutionLog` (lines 135-141):
`{ dimension, conflict: conflict.description, strategy, resolution:
resolution.explanation, confidence: resolution.confidence }`. -/
structure ResolutionEntry where
  dimension : String
  conflict : String
  strategy : ResolutionStrategy
  resolution : String
  confidence : ℚ
deriving DecidableEq

def mkEntry (dimension : String) (c : AttributeConflict) (s : ResolutionStrategy)
    (r : Resolution) : ResolutionEntry :=
  { dimension := dimension, conflict := c.attr, strategy := s,
    resolution := r.explanation, confidence := r.confidence }

abbrev ResolvedProfile := List (String × String)

/-- The inner loop of `#resolveProfileConflicts` for one dimension
(lines 130-142): for each conflict, select a strategy, resolve, overwrite
`resolvedProfile[dimension]` with the resolved value, and append one log
entry. -/
def resolveDimension (select : AttributeConflict → ResolutionStrategy)
    (resolve : ResolutionStrategy → AttributeConflict → Resolution)
    (dimension : String) (st : ResolvedProfile × List ResolutionEntry)
    (conflicts : List AttributeConflict) : ResolvedProfile × List ResolutionEntry :=
  conflicts.foldl
    (fun st c =>
      let strat := select c
      let res := resolve strat c
      (setKV st.1 dimension res.resolvedValue, st.2 ++ [mkEntry dimension c strat res]))
    st

/-- Modelled from the spec: `detectRemainingConflicts` is not under `src/`;
per §4.3 the detector is re-run on the already-resolved profile, in which
each dimension carries a single resolved value, so an entry is conflicted
only when its key occurs elsewhere with a different value. -/
def detectRemainingConflicts (rp : ResolvedProfile) : List AttributeConflict :=
  (rp.filter (fun e => rp.any (fun e2 => e2.1 = e.1 ∧ e2.2 ≠ e.2))).map
    (fun e =>
      { attr := e.1
        candidates := [{ value := e.2, source := "resolved", observedAt := 0,
                         sourceReliability := 1 }] })

/-- The result object of `#resolveProfileConflicts` (lines 145-149). -/
structure ConflictResolutionResult where
  resolvedProfile : ResolvedProfile
  resolutionLog : List ResolutionEntry
  remainingConflicts : List AttributeConflict
deriving DecidableEq

/-- Lines 115-150 of src/unnamed/part_000: detect conflicts, loop over the
detected `(dimension, conflicts)` entries resolving each conflict in order,
and return the resolved profile, the log, and the conflicts re-detected on
the resolved profile. -/
def resolveProfileConflicts (select : AttributeConflict → ResolutionStrategy)
    (resolve : ResolutionStrategy → AttributeConflict → Resolution)
    (profile : Profile) : ConflictResolutionResult :=
  let detected := detectConflicts profile
  let st := detected.foldl (fun st dc => resolveDimension select resolve dc.1 st dc.2) ([], [])
  { resolvedProfile := st.1
    resolutionLog := st.2
    remainingConflicts := detectRemainingConflicts st.1 }

/-- Total number of detected conflicts, over all dimensions. -/
def totalDetectedConflicts (profile : Profile) : ℕ :=
  ((detectConflicts profile).map (fun dc => dc.2.length)).sum

/-- A concrete selection policy (used only to instantiate theorems on
concrete inputs): always temporal recency. -/
def sampleSelect : AttributeConflict → ResolutionStrategy :=
  fun _ => .temporal_recency

/-- A concrete total resolver (used only to instantiate theorems on concrete
inputs): take the first candidate's value. -/
def sampleResolve : ResolutionStrategy → AttributeConflict → Resolution :=
  fun _ c =>
    { resolvedValue := ((c.candidates.head?).getD
        { value := "", source := "", observedAt := 0, sourceReliability := 1 }).value
      explanation := "first candidate"
      confidence := 1 }

/-- Scenario 4 of the specification: attribute "city" with two candidates
carrying the same value "NYC" from two sources. -/
def scenario4 : Profile :=
  [ ("demographic",
      [ ("city",
          [ { value := "NYC", source := "srcA", observedAt := 1, sourceReliability := 1 }
          , { value := "NYC", source := "srcB", observedAt := 2, sourceReliability := 1 } ]) ]) ]

theorem getKV_setKV_self {α : Type} (m : List (String × α)) (k : String) (v : α) :
    getKV (setKV m k v) k = some v := by
  induction m with
  | nil => simp [getKV, setKV]
  | cons e rest ih =>
    by_cases h : e.1 = k
    · simp [getKV, setKV, h]
    · simp [getKV, setKV, h, ih]

theorem getKV_setKV_ne {α : Type} (m : List (String × α)) (k k' : String) (v : α)
    (h : k' ≠ k) : getKV (setKV m k v) k' = getKV m k' := by
  induction m with
  | nil => simp [getKV, setKV, Ne.symm h]
  | cons e rest ih =>
    by_cases he : e.1 = k
    · simp [getKV, setKV, he, Ne.symm h]
    · simp only [setKV, he, ite_false]
      by_cases he' : e.1 = k'
      · simp [getKV, he']
      · simp [getKV, he', ih]

theorem mem_keys_setKV {α : Type} (m : List (String × α)) (k a : String) (v : α) :
    a ∈ (setKV m k v).map Prod.fst ↔ a ∈ m.map Prod.fst ∨ a = k := by
  induction m with
  | nil => simp [setKV, eq_comm]
  | cons e rest ih =>
    by_cases he : e.1 = k
    · simp only [setKV, he, ite_true, List.map_cons, List.mem_cons]
      tauto
    · simp only [setKV, he, ite_false, List.map_cons, List.mem_cons, ih]
      tauto

theorem nodup_keys_setKV {α : Type} (m : List (String × α)) (k : String) (v : α)
    (h : (m.map Prod.fst).Nodup) : ((setKV m k v).map Prod.fst).Nodup := by
  induction m with
  | nil => simp [setKV]
  | cons e rest ih =>
    simp only [List.map_cons, List.nodup_cons] at h
    by_cases he : e.1 = k
    · simp only [setKV, he, ite_true, List.map_cons, List.nodup_cons]
      exact ⟨he ▸ h.1, h.2⟩
    · simp only [setKV, he, ite_false, List.map_cons, List.nodup_cons]
      refine ⟨?_, ih h.2⟩
      rw [mem_keys_setKV]
      rintro (hc | hc)
      · exact h.1 hc
      · exact he hc

theorem getKV_eq_some_of_mem {α : Type} (m : List (String × α)) (k : String) (v : α)
    (hnd : (m.map Prod.fst).Nodup) (hm : (k, v) ∈ m) : getKV m k = some v := by
  induction m with
  | nil => simp at hm
  | cons e rest ih =>
    simp only [List.map_cons, List.nodup_cons] at hnd
    rcases List.mem_cons.mp hm with h | h
    · simp [getKV, ← h]
    · have hne : e.1 ≠ k := by
        intro hc
        exact hnd.1 (hc ▸ (List.mem_map.mpr ⟨(k, v), h, rfl⟩))
      simp [getKV, hne, ih hnd.2 h]

theorem kv_value_unique {α : Type} (m : List (String × α)) (k : String) (a b : α)
    (hnd : (m.map Prod.fst).Nodup) (ha : (k, a) ∈ m) (hb : (k, b) ∈ m) : a = b := by
  have h1 := getKV_eq_some_of_mem m k a hnd ha
  have h2 := getKV_eq_some_of_mem m k b hnd hb
  rw [h1] at h2
  exact Option.some.inj h2

theorem setKV_setKV {α : Type} (m : List (String × α)) (k : String) (v v' : α) :
    setKV (setKV m k v) k v' = setKV m k v' := by
  induction m with
  | nil => simp [setKV]
  | cons e rest ih =>
    by_cases he : e.1 = k
    · simp [setKV, he]
    · simp [setKV, he, ih]

theorem sorted_sortVotesDesc (m : VotesMap) : List.Sorted voteGE (sortVotesDesc m) :=
  List.sorted_insertionSort voteGE m

theorem perm_sortVotesDesc (m : VotesMap) : List.Perm (sortVotesDesc m) m :=
  List.perm_insertionSort voteGE m

theorem head_orderedInsert (a : String × Vote) (l : VotesMap) :
    (List.orderedInsert voteGE a l).head? =
      some (match l.head? with
            | none => a
            | some b => if voteGE a b then a else b) := by
  cases l with
  | nil => rfl
  | cons b t =>
    by_cases h : voteGE a b
    · simp [List.orderedInsert, h]
    · simp [List.orderedInsert, h]

theorem head_sortVotesDesc (m : VotesMap) : (sortVotesDesc m).head? = firstMaxVote m := by
  induction m with
  | nil => rfl
  | cons e rest ih =>
    have hstep : sortVotesDesc (e :: rest) = List.orderedInsert voteGE e (sortVotesDesc rest) :=
      rfl
    rw [hstep, head_orderedInsert, ih]
    cases hb : firstMaxVote rest with
    | none => simp [firstMaxVote, hb]
    | some b =>
      simp only [firstMaxVote, hb]
      congr 1
      by_cases h : voteGE e b
      · have hlt : ¬ e.2.totalWeight < b.2.totalWeight := not_lt.mpr h
        simp [h, hlt]
      · have hlt : e.2.totalWeight < b.2.totalWeight := lt_of_not_ge h
        simp [h, hlt]

theorem accumulateResolution_cons (m : VotesMap) (w : ℚ) (c : IdentityClaim)
    (cs : List IdentityClaim) :
    accumulateResolution m w (c :: cs) =
      accumulateResolution
        (setKV m c.1
          { totalWeight :=
              ((getKV m c.1).getD { totalWeight := 0, sources := [] }).totalWeight +
                w * c.2.confidence
            sources :=
              ((getKV m c.1).getD { totalWeight := 0, sources := [] }).sources ++ [c.2.source] })
        w cs := rfl

theorem nodup_keys_accumulateResolution (m : VotesMap) (w : ℚ) (cs : List IdentityClaim)
    (h : (m.map Prod.fst).Nodup) : ((accumulateResolution m w cs).map Prod.fst).Nodup := by
  induction cs generalizing m with
  | nil => exact h
  | cons c cs ih =>
    rw [accumulateResolution_cons]
    exact ih _ (nodup_keys_setKV _ _ _ h)

theorem nodup_keys_identityVotes (results : List (ℚ × List IdentityClaim)) :
    ((identityVotes results).map Prod.fst).Nodup := by
  have main : ∀ (rs : List (ℚ × List IdentityClaim)) (m : VotesMap),
      (m.map Prod.fst).Nodup →
      ((rs.foldl (fun m r => accumulateResolution m r.1 r.2) m).map Prod.fst).Nodup := by
    intro rs
    induction rs with
    | nil => intro m h; exact h
    | cons r rs ih =>
      intro m h
      exact ih _ (nodup_keys_accumulateResolution _ _ _ h)
  exact main results [] (by simp)

/-- Total weight stored for key `k` in a vote map (0 when absent). -/
def mapWeight (m : VotesMap) (k : String) : ℚ :=
  ((getKV m k).getD { totalWeight := 0, sources := [] }).totalWeight

theorem mapWeight_accumulateResolution (m : VotesMap) (w : ℚ) (cs : List IdentityClaim)
    (k : String) :
    mapWeight (accumulateResolution m w cs) k = mapWeight m k + w * confSum k cs := by
  induction cs generalizing m with
  | nil => simp [accumulateResolution, confSum]
  | cons c cs ih =>
    rw [accumulateResolution_cons, ih]
    by_cases h : c.1 = k
    · subst h
      rw [confSum]
      simp only [mapWeight, getKV_setKV_self, Option.getD_some, eq_self_iff_true, ite_true]
      ring
    · rw [confSum]
      simp only [mapWeight, getKV_setKV_ne m c.1 k _ (Ne.symm h), if_neg h]
      ring_nf

theorem mapWeight_foldl (rs : List (ℚ × List IdentityClaim)) (m : VotesMap) (k : String) :
    mapWeight (rs.foldl (fun m r => accumulateResolution m r.1 r.2) m) k =
      mapWeight m k + voteFormula k rs := by
  induction rs generalizing m with
  | nil => simp [voteFormula]
  | cons r rs ih =>
    rw [List.foldl_cons, ih, mapWeight_accumulateResolution]
    cases r with
    | mk w cs => rw [voteFormula]; ring

theorem voteOf_eq_voteFormula (rs : List (ℚ × List IdentityClaim)) (k : String) :
    voteOf rs k = voteFormula k rs := by
  have h := mapWeight_foldl rs [] k
  simp only [mapWeight, getKV] at h
  simpa [voteOf, identityVotes, mapWeight] using h

theorem confSum_append (k : String) (cs ds : List IdentityClaim) :
    confSum k (cs ++ ds) = confSum k cs + confSum k ds := by
  induction cs with
  | nil => simp [confSum]
  | cons c cs ih => rw [List.cons_append, confSum, confSum, ih]; ring

theorem voteFormula_append (k : String) (rs ss : List (ℚ × List IdentityClaim)) :
    voteFormula k (rs ++ ss) = voteFormula k rs + voteFormula k ss := by
  induction rs with
  | nil => simp [voteFormula]
  | cons r rs ih =>
    cases r with
    | mk w cs => rw [List.cons_append, voteFormula, voteFormula, ih]; ring

theorem resolveDimension_log (select : AttributeConflict → ResolutionStrategy)
    (resolve : ResolutionStrategy → AttributeConflict → Resolution) (d : String)
    (st : ResolvedProfile × List ResolutionEntry) (cs : List AttributeConflict) :
    (resolveDimension select resolve d st cs).2 =
      st.2 ++ cs.map (fun c => mkEntry d c (select c) (resolve (select c) c)) := by
  induction cs generalizing st with
  | nil => simp [resolveDimension]
  | cons c cs ih =>
    have hstep : resolveDimension select resolve d st (c :: cs) =
        resolveDimension select resolve d
          (setKV st.1 d (resolve (select c) c).resolvedValue,
           st.2 ++ [mkEntry d c (select c) (resolve (select c) c)]) cs := rfl
    rw [hstep, ih]
    simp

theorem resolveDimension_fst (select : AttributeConflict → ResolutionStrategy)
    (resolve : ResolutionStrategy → AttributeConflict → Resolution) (d : String)
    (st : ResolvedProfile × List ResolutionEntry) (cs : List AttributeConflict) :
    (resolveDimension select resolve d st cs).1 =
      match cs.getLast? with
      | none => st.1
      | some c => setKV st.1 d (resolve (select c) c).resolvedValue := by
  induction cs generalizing st with
  | nil => simp [resolveDimension]
  | cons c cs ih =>
    have hstep : resolveDimension select resolve d st (c :: cs) =
        resolveDimension select resolve d
          (setKV st.1 d (resolve (select c) c).resolvedValue,
           st.2 ++ [mkEntry d c (select c) (resolve (select c) c)]) cs := rfl
    rw [hstep, ih]
    cases cs with
    | nil => simp
    | cons c2 cs2 =>
      rw [List.getLast?_cons_cons]
      cases hc : (c2 :: cs2).getLast? with
      | none => simp at hc
      | some x => simp [setKV_setKV]

theorem conflictFold_log (select : AttributeConflict → ResolutionStrategy)
    (resolve : ResolutionStrategy → AttributeConflict → Resolution)
    (dcs : List (String × List AttributeConflict))
    (st : ResolvedProfile × List ResolutionEntry) :
    (dcs.foldl (fun st dc => resolveDimension select resolve dc.1 st dc.2) st).2 =
      st.2 ++
        ((dcs.map (fun dc =>
          dc.2.map (fun c => mkEntry dc.1 c (select c) (resolve (select c) c)))).flatten) := by
  induction dcs generalizing st with
  | nil => simp
  | cons dc dcs ih =>
    rw [List.foldl_cons, ih, resolveDimension_log]
    simp

theorem resolveProfileConflicts_log (select : AttributeConflict → ResolutionStrategy)
    (resolve : ResolutionStrategy → AttributeConflict → Resolution) (profile : Profile) :
    (resolveProfileConflicts select resolve profile).resolutionLog =
      (((detectConflicts profile).map (fun dc =>
        dc.2.map (fun c => mkEntry dc.1 c (select c) (resolve (select c) c)))).flatten) := by
  have h := conflictFold_log select resolve (detectConflicts profile) ([], [])
  simpa [resolveProfileConflicts] using h

theorem conflictFold_fst_not_mem (select : AttributeConflict → ResolutionStrategy)
    (resolve : ResolutionStrategy → AttributeConflict → Resolution)
    (dcs : List (String × List AttributeConflict))
    (st : ResolvedProfile × List ResolutionEntry) (d : String)
    (h : d ∉ dcs.map Prod.fst) :
    getKV (dcs.foldl (fun st dc => resolveDimension select resolve dc.1 st dc.2) st).1 d =
      getKV st.1 d := by
  induction dcs generalizing st with
  | nil => rfl
  | cons dc dcs ih =>
    simp only [List.map_cons, List.mem_cons] at h
    push_neg at h
    rw [List.foldl_cons, ih _ h.2, resolveDimension_fst]
    cases hc : dc.2.getLast? with
    | none => rfl
    | some c => exact getKV_setKV_ne _ _ _ _ h.1

theorem conflictFold_fst_mem (select : AttributeConflict → ResolutionStrategy)
    (resolve : ResolutionStrategy → AttributeConflict → Resolution)
    (dcs : List (String × List AttributeConflict))
    (st : ResolvedProfile × List ResolutionEntry) (d : String)
    (cs : List AttributeConflict)
    (hnd : (dcs.map Prod.fst).Nodup) (hmem : (d, cs) ∈ dcs) (h0 : getKV st.1 d = none) :
    getKV (dcs.foldl (fun st dc => resolveDimension select resolve dc.1 st dc.2) st).1 d =
      cs.getLast?.map (fun c => (resolve (select c) c).resolvedValue) := by
  induction dcs generalizing st with
  | nil => simp at hmem
  | cons dc dcs ih =>
    simp only [List.map_cons, List.nodup_cons] at hnd
    rcases List.mem_cons.mp hmem with hh | hh
    · have hd1 : dc.1 = d := by rw [← hh]
      have hnotin : d ∉ dcs.map Prod.fst := hd1 ▸ hnd.1
      rw [List.foldl_cons, conflictFold_fst_not_mem _ _ _ _ _ hnotin, resolveDimension_fst]
      have hcs : dc.2 = cs := by rw [← hh]
      rw [hcs, hd1]
      cases hc : cs.getLast? with
      | none => simp [h0]
      | some c => simp [getKV_setKV_self]
    · have hne : dc.1 ≠ d := by
        intro hc
        exact hnd.1 (hc ▸ List.mem_map.mpr ⟨(d, cs), hh, rfl⟩)
      rw [List.foldl_cons]
      apply ih _ hnd.2 hh
      rw [resolveDimension_fst]
      cases dc.2.getLast? with
      | none => exact h0
      | some c => rw [getKV_setKV_ne _ _ _ _ (Ne.symm hne)]; exact h0

theorem conflictFold_fst_nodup (select : AttributeConflict → ResolutionStrategy)
    (resolve : ResolutionStrategy → AttributeConflict → Resolution)
    (dcs : List (String × List AttributeConflict))
    (st : ResolvedProfile × List ResolutionEntry)
    (h : (st.1.map Prod.fst).Nodup) :
    (((dcs.foldl (fun st dc => resolveDimension select resolve dc.1 st dc.2) st).1).map
      Prod.fst).Nodup := by
  induction dcs generalizing st with
  | nil => exact h
  | cons dc dcs ih =>
    rw [List.foldl_cons]
    apply ih
    rw [resolveDimension_fst]
    cases dc.2.getLast? with
    | none => exact h
    | some c => exact nodup_keys_setKV _ _ _ h

theorem detectRemainingConflicts_eq_nil (rp : ResolvedProfile)
    (h : (rp.map Prod.fst).Nodup) : detectRemainingConflicts rp = [] := by
  unfold detectRemainingConflicts
  have hf : rp.filter (fun e => rp.any (fun e2 => e2.1 = e.1 ∧ e2.2 ≠ e.2)) = [] := by
    rw [List.filter_eq_nil_iff]
    intro e he
    simp only [List.any_eq_true, decide_eq_true_eq, not_exists]
    rintro e2 ⟨he2, heq, hneq⟩
    exact hneq (kv_value_unique rp e.1 e2.2 e.2 h (heq ▸ he2) (he : (e.1, e.2) ∈ rp))
  rw [hf]
  rfl

theorem keys_detectConflicts (profile : Profile) :
    (detectConflicts profile).map Prod.fst = profile.map Prod.fst := by
  simp [detectConflicts]

theorem length_resolveProfileConflicts_log (select : AttributeConflict → ResolutionStrategy)
    (resolve : ResolutionStrategy → AttributeConflict → Resolution) (profile : Profile) :
    (resolveProfileConflicts select resolve profile).resolutionLog.length =
      totalDetectedConflicts profile := by
  rw [resolveProfileConflicts_log]
  simp [totalDetectedConflicts, List.length_flatten, List.map_map, Function.comp_def]

theorem nodup_keys_resolvedProfile (select : AttributeConflict → ResolutionStrategy)
    (resolve : ResolutionStrategy → AttributeConflict → Resolution) (profile : Profile) :
    (((resolveProfileConflicts select resolve profile).resolvedProfile).map Prod.fst).Nodup := by
  have h := conflictFold_fst_nodup select resolve (detectConflicts profile) ([], []) (by simp)
  simpa [resolveProfileConflicts] using h

theorem distinctValues_const (cands : List Candidate) (v : String)
    (hne : cands ≠ []) (hval : ∀ c ∈ cands, c.value = v) : distinctValues cands = [v] := by
  have aux : ∀ (cs : List Candidate), (∀ c ∈ cs, c.value = v) →
      cs.foldl (fun acc c => if c.value ∈ acc then acc else acc ++ [c.value]) [v] = [v] := by
    intro cs
    induction cs with
    | nil => intro _; rfl
    | cons c cs ih =>
      intro h
      have hv : c.value = v := h c (by simp)
      rw [List.foldl_cons]
      simp only [hv, List.mem_singleton, eq_self_iff_true, ite_true]
      exact ih (fun c2 hc2 => h c2 (by simp [hc2]))
  cases cands with
  | nil => exact absurd rfl hne
  | cons c cs =>
    have hv : c.value = v := hval c (by simp)
    unfold distinctValues
    rw [List.foldl_cons]
    simp only [List.not_mem_nil, ite_false, List.nil_append, hv]
    exact aux cs (fun c2 hc2 => hval c2 (by simp [hc2]))

/-- Claim C1: for every collection of per-strategy claim sets with
per-strategy weights, the identity returned by `#establishConsensusIdentity`
carries a maximal accumulated vote among all distinct identity keys, the
accumulated vote being `Σ_i strategyWeight_i * claim.confidence`
(`voteFormula`); and on the spec's Scenario 1 the votes are 1.05 for A and
0.8 for B and the consensus is A. -/
theorem claim_C1_consensus_vote_maximal :
    (∀ (results : List (ℚ × List IdentityClaim)) (k : String),
        establishConsensusIdentity results = .ok k →
        ∀ e ∈ identityVotes results, e.2.totalWeight ≤ voteOf results k)
    ∧ (∀ (results : List (ℚ × List IdentityClaim)) (k : String),
        voteOf results k = voteFormula k results)
    ∧ establishConsensusIdentity scenario1 = .ok "A"
    ∧ voteOf scenario1 "A" = 21/20
    ∧ voteOf scenario1 "B" = 4/5 := by
  refine ⟨?_, fun results k => voteOf_eq_voteFormula results k, ?_, ?_, ?_⟩
  · intro results k hk e he
    cases hs : sortVotesDesc (identityVotes results) with
    | nil =>
      unfold establishConsensusIdentity at hk
      rw [hs] at hk
      exact absurd hk (by simp)
    | cons b t =>
      unfold establishConsensusIdentity at hk
      rw [hs] at hk
      simp only [Except.ok.injEq] at hk
      subst hk
      have hbmem : b ∈ identityVotes results :=
        (perm_sortVotesDesc (identityVotes results)).mem_iff.mp
          (hs ▸ List.mem_cons_self b t)
      have hget : getKV (identityVotes results) b.1 = some b.2 :=
        getKV_eq_some_of_mem (identityVotes results) b.1 b.2
          (nodup_keys_identityVotes results) hbmem
      have hvote : voteOf results b.1 = b.2.totalWeight := by
        simp [voteOf, hget]
      rw [hvote]
      have hesort : e ∈ sortVotesDesc (identityVotes results) :=
        (perm_sortVotesDesc (identityVotes results)).mem_iff.mpr he
      rw [hs] at hesort
      rcases List.mem_cons.mp hesort with he1 | he2
      · rw [he1]
      · have hsorted := sorted_sortVotesDesc (identityVotes results)
        rw [hs] at hsorted
        exact List.rel_of_sorted_cons hsorted e he2
  · simp [establishConsensusIdentity, scenario1, identityVotes, accumulateResolution,
      getKV, setKV, sortVotesDesc, List.insertionSort, List.orderedInsert, voteGE]
    norm_num
  · simp [voteOf, scenario1, identityVotes, accumulateResolution, getKV, setKV]
    norm_num
  · simp [voteOf, scenario1, identityVotes, accumulateResolution, getKV, setKV]
    norm_num

/-- Witness for C1 at Scenario 1: the non-winning identity B's accumulated
vote (0.8) is at most the consensus identity A's vote. -/
theorem claim_C1_witness :
    Vote.totalWeight { totalWeight := 4/5, sources := ["strategy3"] } ≤ voteOf scenario1 "A" := by
  have hv : identityVotes scenario1 =
      [ ("A", { totalWeight := 21/20, sources := ["strategy1", "strategy2"] })
      , ("B", { totalWeight := 4/5, sources := ["strategy3"] }) ] := by
    simp [identityVotes, scenario1, accumulateResolution, getKV, setKV]
    norm_num
  exact claim_C1_consensus_vote_maximal.1 scenario1 "A"
    (by
      simp [establishConsensusIdentity, scenario1, identityVotes, accumulateResolution,
        getKV, setKV, sortVotesDesc, List.insertionSort, List.orderedInsert, voteGE]
      norm_num)
    ("B", { totalWeight := 4/5, sources := ["strategy3"] })
    (by rw [hv]; simp)

/-- Input on which two identities tie on accumulated vote: B (one
contributing source) is encountered first, A (two contributing sources,
lexicographically smaller) reaches the same total. -/
def tieInput : List (ℚ × List IdentityClaim) :=
  [ (1, [("B", { source := "s1", relationship := "same_person",
                 confidence := 1, temporalScope := "all" })])
  , (1, [("A", { source := "s2", relationship := "same_person",
                 confidence := 1/2, temporalScope := "all" })])
  , (1, [("A", { source := "s3", relationship := "same_person",
                 confidence := 1/2, temporalScope := "all" })]) ]

/-- Counterexample to claim C2: on `tieInput` the votes of A and B tie at 1,
A has two contributing sources against B's one and is lexicographically
smaller, yet `#establishConsensusIdentity` returns B — the first key of the
vote map in insertion order — because the stable sort keeps insertion order
on ties. -/
theorem claim_C2_counterexample :
    voteOf tieInput "A" = voteOf tieInput "B"
    ∧ getKV (identityVotes tieInput) "A" = some { totalWeight := 1, sources := ["s2", "s3"] }
    ∧ getKV (identityVotes tieInput) "B" = some { totalWeight := 1, sources := ["s1"] }
    ∧ "A" < "B"
    ∧ establishConsensusIdentity tieInput = .ok "B" := by
  refine ⟨?_, ?_, ?_, ?_, ?_⟩
  · simp [voteOf, tieInput, identityVotes, accumulateResolution, getKV, setKV]
    norm_num
  · simp [tieInput, identityVotes, accumulateResolution, getKV, setKV]
    norm_num
  · simp [tieInput, identityVotes, accumulateResolution, getKV, setKV]
  · simp
    decide
  · simp [establishConsensusIdentity, tieInput, identityVotes, accumulateResolution,
      getKV, setKV, sortVotesDesc, List.insertionSort, List.orderedInsert, voteGE]
    norm_num

/-- Claim C2 amended: `#establishConsensusIdentity` returns the first key of
the vote map, in Map insertion order (order of first claim occurrence),
among the keys of maximal accumulated vote (`firstMaxVote`); ties are broken
by encounter order, not by source count or lexicographic order.  As a pure
function of the ordered claim sets and weights it is deterministic. -/
theorem claim_C2_amended_first_encounter_wins (results : List (ℚ × List IdentityClaim)) :
    establishConsensusIdentity results =
      match firstMaxVote (identityVotes results) with
      | none => .error .typeError
      | some e => .ok e.1 := by
  have h := head_sortVotesDesc (identityVotes results)
  unfold establishConsensusIdentity
  cases hs : sortVotesDesc (identityVotes results) with
  | nil =>
    rw [hs] at h
    simp only [List.head?_nil] at h
    rw [← h]
  | cons b t =>
    rw [hs] at h
    simp only [List.head?_cons] at h
    rw [← h]

theorem promiseAll_ok_nils (srs : List (Except JsError (List IdentityClaim)))
    (h : ∀ r ∈ srs, r = .ok []) :
    promiseAll srs = .ok (srs.map (fun _ => ([] : List IdentityClaim))) := by
  induction srs with
  | nil => rfl
  | cons r rest ih =>
    have hr : r = .ok [] := h r (by simp)
    subst hr
    have hrest := ih (fun x hx => h x (by simp [hx]))
    simp only [promiseAll, hrest, Except.map, List.map_cons]

theorem identityVotes_all_empty (rs : List (ℚ × List IdentityClaim))
    (h : ∀ r ∈ rs, r.2 = []) : identityVotes rs = [] := by
  induction rs with
  | nil => rfl
  | cons r rest ih =>
    have h2 : r.2 = [] := h r (by simp)
    have hstep : accumulateResolution [] r.1 r.2 = [] := by rw [h2]; rfl
    unfold identityVotes
    rw [List.foldl_cons, hstep]
    exact ih (fun x hx => h x (by simp [hx]))

/-- Counterexample to claim C3: with four strategies all returning empty
claim sets the resolution does fail, but with a `TypeError` (the code indexes
`undefined` after sorting an empty vote array), not with a dedicated
`NoIdentityEvidenceError` — no such error exists in the code. -/
theorem claim_C3_counterexample :
    resolveCustomerIdentity [1, 1, 1, 1] [.ok [], .ok [], .ok [], .ok []] "cust-1" =
        .error .typeError
    ∧ JsError.typeError ≠ JsError.noIdentityEvidenceError :=
  ⟨rfl, by decide⟩

/-- Claim C3 amended: whenever every strategy returns an empty claim set,
`#resolveCustomerIdentity` fails — with the generic `TypeError` thrown by
`.slice(0, 1)[0][0]` on the empty sorted vote array, not with a dedicated
`NoIdentityEvidenceError` — and in particular never returns a result
defaulting to the initial identifier. -/
theorem claim_C3_amended_fails_with_type_error (weights : List ℚ)
    (srs : List (Except JsError (List IdentityClaim))) (init : String)
    (h : ∀ r ∈ srs, r = .ok []) :
    resolveCustomerIdentity weights srs init = .error .typeError := by
  have hp := promiseAll_ok_nils srs h
  have hv : identityVotes (weights.zip (srs.map (fun _ => ([] : List IdentityClaim)))) = [] := by
    apply identityVotes_all_empty
    intro r hr
    have h2 := (List.of_mem_zip hr).2
    simp only [List.mem_map] at h2
    obtain ⟨x, _, hx⟩ := h2
    exact hx.symm
  have hest : establishConsensusIdentity
      (weights.zip (srs.map (fun _ => ([] : List IdentityClaim)))) = .error .typeError := by
    unfold establishConsensusIdentity
    rw [hv]
    rfl
  unfold resolveCustomerIdentity
  rw [hp]
  show (establishConsensusIdentity _).bind _ = _
  rw [hest]
  rfl

/-- Witness for the amended C3 on a concrete input: two strategies with
empty claim sets make the resolver fail with a TypeError. -/
theorem claim_C3_witness :
    resolveCustomerIdentity [1, 1] [.ok [], .ok []] "c0" = .error .typeError :=
  claim_C3_amended_fails_with_type_error [1, 1] [.ok [], .ok []] "c0" (by decide)

/-- Claim C4 (code bug): `#resolveCustomerIdentity` inserts the initial
identifier as a node but never inserts the claimed identities as nodes, so
under the spec's `addEdge` contract (`DanglingReferenceError` on an absent
endpoint) adding the edge for the very first claim whose identity differs
from the initial identifier aborts the whole resolution. -/
theorem claim_C4_edge_added_without_node :
    resolveCustomerIdentity [1]
      [.ok [("id-A", { source := "email", relationship := "same_person",
                       confidence := 1, temporalScope := "all" })]] "cust-1" =
      .error .danglingReferenceError := rfl

/-- Counterexample to claim C5: one strategy fails while the first succeeds
with a claim and the remaining two succeed with empty claim sets, and
`#resolveCustomerIdentity` does not complete: `Promise.all` rejects with the
strategy's error instead of treating the failed strategy as an empty claim
set. -/
theorem claim_C5_counterexample :
    resolveCustomerIdentity [1, 1, 1, 1]
      [ .ok [("id-A", { source := "email", relationship := "same_person",
                        confidence := 1, temporalScope := "all" })]
      , .error .strategyError, .ok [], .ok [] ] "cust-1" = .error .strategyError := rfl

theorem promiseAll_first_error {α : Type} (pre post : List (Except JsError α)) (e : JsError)
    (h : ∀ r ∈ pre, ∃ l, r = .ok l) :
    promiseAll (pre ++ .error e :: post) = .error e := by
  induction pre with
  | nil => rfl
  | cons r rest ih =>
    obtain ⟨l, hl⟩ := h r (by simp)
    subst hl
    have hrest := ih (fun x hx => h x (by simp [hx]))
    have hgoal : promiseAll ((Except.ok l :: rest) ++ Except.error e :: post) =
        (promiseAll (rest ++ Except.error e :: post)).map (fun v => l :: v) := rfl
    rw [hgoal, hrest]
    rfl

/-- Claim C5 amended: a failing strategy is not absorbed as an empty claim
set — `Promise.all` rejects with the first failing strategy's error and the
whole `#resolveCustomerIdentity` call fails with it, regardless of how many
other strategies succeed. -/
theorem claim_C5_amended_failure_aborts_resolution (weights : List ℚ)
    (pre post : List (Except JsError (List IdentityClaim))) (e : JsError) (init : String)
    (h : ∀ r ∈ pre, ∃ l, r = .ok l) :
    resolveCustomerIdentity weights (pre ++ .error e :: post) init = .error e := by
  unfold resolveCustomerIdentity
  rw [promiseAll_first_error pre post e h]
  rfl

/-- Witness for the amended C5 on a concrete input: one successful strategy
followed by one failing strategy makes the whole resolution fail with the
strategy's error. -/
theorem claim_C5_witness :
    resolveCustomerIdentity [1, 1] [.ok [], .error .strategyError] "c0" =
      .error .strategyError := by
  have h := claim_C5_amended_failure_aborts_resolution [1, 1] [.ok []] [] .strategyError "c0"
    (by intro r hr; simp only [List.mem_singleton] at hr; exact ⟨[], hr⟩)
  simpa using h

/-- Claim C8: adding one claim for identity X with positive confidence under
a strategy of non-negative weight — anywhere in the claim sets — never
decreases X's accumulated vote. -/
theorem claim_C8_vote_monotone (rs₁ rs₂ : List (ℚ × List IdentityClaim)) (w : ℚ)
    (cs₁ cs₂ : List IdentityClaim) (X : String) (meta : ClaimMeta)
    (hw : 0 ≤ w) (hc : 0 < meta.confidence) :
    voteOf (rs₁ ++ (w, cs₁ ++ cs₂) :: rs₂) X ≤
      voteOf (rs₁ ++ (w, cs₁ ++ (X, meta) :: cs₂) :: rs₂) X := by
  rw [voteOf_eq_voteFormula, voteOf_eq_voteFormula, voteFormula_append, voteFormula_append]
  simp only [voteFormula, confSum_append, confSum, eq_self_iff_true, ite_true]
  have hmul : 0 ≤ w * meta.confidence := mul_nonneg hw hc.le
  nlinarith [hmul]

/-- A claim used to instantiate the monotonicity theorem. -/
def extraClaim : ClaimMeta :=
  { source := "s9", relationship := "same_person", confidence := 1/2, temporalScope := "all" }

/-- Witness for C8: adding a claim of confidence 0.5 for X under a strategy
of weight 1 does not decrease X's vote. -/
theorem claim_C8_witness :
    voteOf [(1, [])] "X" ≤ voteOf [(1, [("X", extraClaim)])] "X" := by
  have h := claim_C8_vote_monotone [] [] 1 [] [] "X" extraClaim (by norm_num)
    (by norm_num [extraClaim])
  simpa using h

/-- Claim C6: for every call to `#resolveProfileConflicts`, the number of
resolution-log entries plus the number of remaining conflicts equals the
number of detected conflicts. -/
theorem claim_C6_no_conflict_lost (select : AttributeConflict → ResolutionStrategy)
    (resolve : ResolutionStrategy → AttributeConflict → Resolution) (profile : Profile) :
    (resolveProfileConflicts select resolve profile).resolutionLog.length +
      (resolveProfileConflicts select resolve profile).remainingConflicts.length =
      totalDetectedConflicts profile := by
  have hrem : (resolveProfileConflicts select resolve profile).remainingConflicts = [] :=
    detectRemainingConflicts_eq_nil _ (nodup_keys_resolvedProfile select resolve profile)
  rw [hrem, length_resolveProfileConflicts_log]
  simp

/-- A profile whose dimensions are listed out of lexicographic order, each
carrying one genuinely conflicted attribute. -/
def profileOutOfOrder : Profile :=
  [ ("beta",
      [ ("battr",
          [ { value := "x", source := "s1", observedAt := 1, sourceReliability := 1 }
          , { value := "y", source := "s2", observedAt := 2, sourceReliability := 1 } ]) ])
  , ("alpha",
      [ ("aattr",
          [ { value := "u", source := "s1", observedAt := 1, sourceReliability := 1 }
          , { value := "w", source := "s2", observedAt := 2, sourceReliability := 1 } ]) ]) ]

/-- Counterexample to claim C7: on `profileOutOfOrder` the resolution log
comes out in detection order `["beta", "alpha"]`, which is not sorted by
dimension name. -/
theorem claim_C7_counterexample :
    (resolveProfileConflicts sampleSelect sampleResolve profileOutOfOrder).resolutionLog.map
        (fun e => e.dimension) = ["beta", "alpha"]
    ∧ ¬ List.Sorted (fun a b : String => a ≤ b)
        ((resolveProfileConflicts sampleSelect sampleResolve profileOutOfOrder).resolutionLog.map
          (fun e => e.dimension)) := by
  have hmap : (resolveProfileConflicts sampleSelect sampleResolve
      profileOutOfOrder).resolutionLog.map (fun e => e.dimension) = ["beta", "alpha"] := rfl
  refine ⟨hmap, ?_⟩
  rw [hmap]
  intro h
  exact absurd (List.rel_of_sorted_cons h "alpha" (by simp)) (by simp; decide)

/-- Claim C7 amended: the resolution log is exactly the detected conflicts
flattened in detector iteration order (dimension order of the profile, and
per-dimension conflict order), one entry per conflict; it is deterministic
in the detector's output order but is not sorted by dimension or attribute
name. -/
theorem claim_C7_amended_log_in_detection_order
    (select : AttributeConflict → ResolutionStrategy)
    (resolve : ResolutionStrategy → AttributeConflict → Resolution) (profile : Profile) :
    (resolveProfileConflicts select resolve profile).resolutionLog =
      (((detectConflicts profile).map (fun dc =>
        dc.2.map (fun c => mkEntry dc.1 c (select c) (resolve (select c) c)))).flatten) :=
  resolveProfileConflicts_log select resolve profile

/-- Claim C9: an attribute whose candidates carry a single distinct value is
never reported as a conflict, produces no resolution-log entry, and its
distinct-value set is exactly its sole candidates' value (taken as-is). -/
theorem claim_C9_single_value_untouched
    (select : AttributeConflict → ResolutionStrategy)
    (resolve : ResolutionStrategy → AttributeConflict → Resolution)
    (profile : Profile) (d a v : String)
    (attrs : List (String × List Candidate)) (cands : List Candidate)
    (hnd : (profile.map Prod.fst).Nodup) (hna : (attrs.map Prod.fst).Nodup)
    (hdim : (d, attrs) ∈ profile) (hattr : (a, cands) ∈ attrs)
    (hne : cands ≠ []) (hval : ∀ c ∈ cands, c.value = v) :
    (∀ cs, (d, cs) ∈ detectConflicts profile → ∀ c ∈ cs, c.attr ≠ a)
    ∧ (∀ e ∈ (resolveProfileConflicts select resolve profile).resolutionLog,
        e.dimension = d → e.conflict ≠ a)
    ∧ distinctValues cands = [v] := by
  have hdv : distinctValues cands = [v] := distinctValues_const cands v hne hval
  have hmain : ∀ cs, (d, cs) ∈ detectConflicts profile → ∀ c ∈ cs, c.attr ≠ a := by
    intro cs hcs c hc hca
    obtain ⟨p, hp, hpe⟩ := List.mem_map.mp hcs
    have hp1 : p.1 = d := congrArg Prod.fst hpe
    have hp2 : (p.2.filter (fun attr => 1 < (distinctValues attr.2).length)).map
        (fun attr => ({ attr := attr.1, candidates := attr.2 } : AttributeConflict)) = cs :=
      congrArg Prod.snd hpe
    have hpmem : (d, p.2) ∈ profile := by rw [← hp1]; exact hp
    have hattrs : p.2 = attrs := kv_value_unique profile d p.2 attrs hnd hpmem hdim
    rw [← hp2] at hc
    obtain ⟨attrE, hattrE, hattrEe⟩ := List.mem_map.mp hc
    have hfil := List.mem_filter.mp hattrE
    have hE1 : attrE.1 = a := by rw [← hca, ← hattrEe]
    have hEmem : (a, attrE.2) ∈ attrs := by
      rw [← hE1]
      exact hattrs ▸ hfil.1
    have hcands : attrE.2 = cands := kv_value_unique attrs a attrE.2 cands hna hEmem hattr
    have hlen := hfil.2
    simp only [decide_eq_true_eq] at hlen
    rw [hcands, hdv] at hlen
    simp at hlen
  refine ⟨hmain, ?_, hdv⟩
  intro e he hed hea
  rw [resolveProfileConflicts_log, List.mem_flatten] at he
  obtain ⟨inner, hinner, hein⟩ := he
  obtain ⟨dc, hdc, hdce⟩ := List.mem_map.mp hinner
  rw [← hdce] at hein
  obtain ⟨c, hcdc, hce⟩ := List.mem_map.mp hein
  have h1 : dc.1 = d := by rw [← hed, ← hce]; rfl
  have h2 : c.attr = a := by rw [← hea, ← hce]; rfl
  have hdcd : (d, dc.2) ∈ detectConflicts profile := by
    rw [← h1]
    exact hdc
  exact hmain dc.2 hdcd c hcdc h2

/-- Witness for C9 at Scenario 4: the two "NYC" candidates of "city" have the
single distinct value "NYC". -/
theorem claim_C9_witness :
    distinctValues
      [ { value := "NYC", source := "srcA", observedAt := 1, sourceReliability := 1 }
      , { value := "NYC", source := "srcB", observedAt := 2, sourceReliability := 1 } ] =
      ["NYC"] := by
  have h := claim_C9_single_value_untouched sampleSelect sampleResolve scenario4
    "demographic" "city" "NYC"
    [ ("city",
        [ { value := "NYC", source := "srcA", observedAt := 1, sourceReliability := 1 }
        , { value := "NYC", source := "srcB", observedAt := 2, sourceReliability := 1 } ]) ]
    [ { value := "NYC", source := "srcA", observedAt := 1, sourceReliability := 1 }
    , { value := "NYC", source := "srcB", observedAt := 2, sourceReliability := 1 } ]
    (by simp [scenario4]) (by simp) (by simp [scenario4]) (by simp) (by simp)
    (by
      intro c hc
      rcases List.mem_cons.mp hc with h1 | h1
      · rw [h1]
      · rcases List.mem_cons.mp h1 with h2 | h2
        · rw [h2]
        · simp at h2)
  exact h.2.2

/-- Claim C10: in the result of `#resolveProfileConflicts` each dimension
maps to at most one resolved value — the last detected conflict's resolved
value, earlier conflicts of the same dimension being overwritten —
dimensions without detected conflicts are absent from `resolvedProfile`
(`getLast?` of an empty conflict list is `none`, and dimensions outside the
profile are absent too), while the log still carries one entry per detected
conflict. -/
theorem claim_C10_last_conflict_wins
    (select : AttributeConflict → ResolutionStrategy)
    (resolve : ResolutionStrategy → AttributeConflict → Resolution)
    (profile : Profile) (hnd : (profile.map Prod.fst).Nodup) :
    (∀ d cs, (d, cs) ∈ detectConflicts profile →
      getKV (resolveProfileConflicts select resolve profile).resolvedProfile d =
        cs.getLast?.map (fun c => (resolve (select c) c).resolvedValue))
    ∧ (∀ d, d ∉ profile.map Prod.fst →
        getKV (resolveProfileConflicts select resolve profile).resolvedProfile d = none)
    ∧ (resolveProfileConflicts select resolve profile).resolutionLog.length =
        totalDetectedConflicts profile := by
  have hkeys := keys_detectConflicts profile
  refine ⟨?_, ?_, length_resolveProfileConflicts_log select resolve profile⟩
  · intro d cs hmem
    have hnd2 : ((detectConflicts profile).map Prod.fst).Nodup := by
      rw [hkeys]
      exact hnd
    exact conflictFold_fst_mem select resolve (detectConflicts profile) ([], []) d cs
      hnd2 hmem rfl
  · intro d hd
    have hd2 : d ∉ (detectConflicts profile).map Prod.fst := by
      rw [hkeys]
      exact hd
    exact (conflictFold_fst_not_mem select resolve (detectConflicts profile)
      ([], []) d hd2).trans rfl

/-- A profile with two conflicted attributes in one dimension and a
conflict-free second dimension. -/
def profileTwoConflicts : Profile :=
  [ ("dim1",
      [ ("a1",
          [ { value := "x", source := "s1", observedAt := 1, sourceReliability := 1 }
          , { value := "y", source := "s2", observedAt := 2, sourceReliability := 1 } ])
      , ("a2",
          [ { value := "u", source := "s1", observedAt := 1, sourceReliability := 1 }
          , { value := "w", source := "s2", observedAt := 2, sourceReliability := 1 } ]) ])
  , ("dim2",
      [ ("b1", [ { value := "z", source := "s1", observedAt := 1, sourceReliability := 1 } ]) ]) ]

/-- Witness for C10: with two conflicts in "dim1" only the second conflict's
resolved value survives, the conflict-free "dim2" and the absent "dim3" have
no entry. -/
theorem claim_C10_witness :
    getKV (resolveProfileConflicts sampleSelect sampleResolve profileTwoConflicts).resolvedProfile
        "dim1" = some "u"
    ∧ getKV (resolveProfileConflicts sampleSelect sampleResolve
        profileTwoConflicts).resolvedProfile "dim2" = none
    ∧ getKV (resolveProfileConflicts sampleSelect sampleResolve
        profileTwoConflicts).resolvedProfile "dim3" = none := by
  have h := claim_C10_last_conflict_wins sampleSelect sampleResolve profileTwoConflicts
    (by simp [profileTwoConflicts])
  refine ⟨?_, ?_, ?_⟩
  · have h1 := h.1 "dim1"
      [ { attr := "a1",
          candidates :=
            [ { value := "x", source := "s1", observedAt := 1, sourceReliability := 1 }
            , { value := "y", source := "s2", observedAt := 2, sourceReliability := 1 } ] }
      , { attr := "a2",
          candidates :=
            [ { value := "u", source := "s1", observedAt := 1, sourceReliability := 1 }
            , { value := "w", source := "s2", observedAt := 2, sourceReliability := 1 } ] } ]
      (List.mem_cons_self _ _)
    exact h1.trans rfl
  · have h2 := h.1 "dim2" [] (by right; exact List.mem_cons_self _ _)
    exact h2.trans rfl
  · exact h.2.1 "dim3" (by simp [profileTwoConflicts])
